import Mathlib

/-
Verification of the scanner training-dataset builder
(tools/ai/build_scanner_training_dataset.py).

The development shallowly embeds the script over `List Char`:
each regular expression of the source is implemented as an executable
scanning function with the leftmost-match / greedy semantics of the
original pattern, and the event-to-attempt state machine `parse_lines`
is a fold over the input lines.
-/

namespace ScannerDataset

/-- Whitespace characters: Python's regex class `\s` and `str.strip()` default set. -/
def isPySpace (c : Char) : Bool :=
  c == ' ' || c == '\t' || c == '\n' || c == '\r' || c == '\x0b' || c == '\x0c'

/-- ASCII decimal digits, the `\d` class of the log patterns. -/
def isDigitC (c : Char) : Bool :=
  decide ('0' ≤ c) && decide (c ≤ '9')

/-- Characters of a status token: the class `[a-zA-Z0-9_]` of `LINE_RE`. -/
def isStatusChar (c : Char) : Bool :=
  (decide ('a' ≤ c) && decide (c ≤ 'z')) || (decide ('A' ≤ c) && decide (c ≤ 'Z')) ||
    isDigitC c || c == '_'

/-- Characters of a provider/mode token: the class `[A-Z_]` of `PROVIDER_RE`/`MODE_RE`. -/
def isUpperTok (c : Char) : Bool :=
  (decide ('A' ≤ c) && decide (c ≤ 'Z')) || c == '_'

/-- Characters of a preset token: the class `[a-zA-Z0-9_\\-]` of `PRESET_RE`
(alphanumerics, underscore, backslash, hyphen). -/
def isPresetChar (c : Char) : Bool :=
  isStatusChar c || c == '\\' || c == '-'

/-- Characters allowed in a query value: the class `[^,|]` of `QUERY_RE`. -/
def isQueryChar (c : Char) : Bool :=
  !(c == ',') && !(c == '|')

/-- The characters stripped from both ends by `.strip(" ,.;")` in `normalize_query`. -/
def qstripChar (c : Char) : Bool :=
  c == ' ' || c == ',' || c == '.' || c == ';'

/-- Value of one ASCII digit character. -/
def digitVal (c : Char) : Nat := c.toNat - 48

/-- `int()` applied to a non-empty string of decimal digits. -/
def digitsToNat (ds : List Char) : Nat :=
  ds.foldl (fun acc c => 10 * acc + digitVal c) 0

/-- Does `pat` occur at the very beginning of `l`? -/
def startsWith : List Char → List Char → Bool
  | [], _ => true
  | _ :: _, [] => false
  | a :: as, b :: bs => a == b && startsWith as bs

/-- Substring containment (Python's `pat in l`). -/
def containsSub (pat : List Char) : List Char → Bool
  | [] => startsWith pat []
  | c :: rest => startsWith pat (c :: rest) || containsSub pat rest

/-- Drop the matching chars at the end of the list. -/
def dropEndWhile (p : Char → Bool) (l : List Char) : List Char :=
  (l.reverse.dropWhile p).reverse

/-- Python's `str.strip()` (whitespace from both ends). -/
def pyStrip (l : List Char) : List Char :=
  dropEndWhile isPySpace (l.dropWhile isPySpace)

/-- Python's `str.strip(" ,.;")`. -/
def pyStripPunct (l : List Char) : List Char :=
  dropEndWhile qstripChar (l.dropWhile qstripChar)

/-- `re.sub(r"\s+", " ", s)`: replace every maximal whitespace run by a single space. -/
def collapseWs : List Char → List Char
  | [] => []
  | [c] => [if isPySpace c then ' ' else c]
  | c1 :: c2 :: rest =>
    if isPySpace c1 && isPySpace c2 then collapseWs (c2 :: rest)
    else (if isPySpace c1 then ' ' else c1) :: collapseWs (c2 :: rest)

/-- `normalize_query` of the source: collapse whitespace on the stripped
string, then strip `" ,.;"` from both ends. -/
def normalize_query (raw : List Char) : List Char :=
  pyStripPunct (collapseWs (pyStrip raw))

/-- `re.search` for a pattern `key ++ good+`: leftmost position where the literal
key is followed by at least one `good` character; the capture is the maximal
`good` run after the key. Implements `ATTEMPT_RE`, `QUERY_RE`, `PROVIDER_RE`,
`MODE_RE` and `PRESET_RE` searches. -/
def searchKey (key : List Char) (good : Char → Bool) : List Char → Option (List Char)
  | [] => none
  | c :: rest =>
    if startsWith key (c :: rest) then
      let v := ((c :: rest).drop key.length).takeWhile good
      if v = [] then searchKey key good rest else some v
    else searchKey key good rest

/-- `parse_attempt_id`: first `attempt=<int>` marker, if any. -/
def parse_attempt_id (message : List Char) : Option Nat :=
  (searchKey ("attempt=".toList) isDigitC message).map digitsToNat

/-- `re.search` of `FOUND_RE = (?:results=|Найдено\s+)(\d+)`: leftmost position
where one of the two alternatives followed by at least one digit matches;
the capture is the maximal digit run. -/
def searchFound : List Char → Option (List Char)
  | [] => none
  | c :: rest =>
    if startsWith ("results=".toList) (c :: rest) then
      let ds := ((c :: rest).drop 8).takeWhile isDigitC
      if ds = [] then searchFound rest else some ds
    else if startsWith ("Найдено".toList) (c :: rest) then
      let after := (c :: rest).drop 7
      let ws := after.takeWhile isPySpace
      let ds := (after.dropWhile isPySpace).takeWhile isDigitC
      if ws = [] ∨ ds = [] then searchFound rest else some ds
    else searchFound rest

/-- `int(...)` guarded by `try/except ValueError`: a non-empty digit string
parses, anything else yields the default 0. -/
def intOrZero (ds : List Char) : Nat :=
  if ds ≠ [] ∧ ds.all isDigitC then digitsToNat ds else 0

/-- `parse_found_count`: result count recovered from the message, default 0. -/
def parse_found_count (message : List Char) : Nat :=
  match searchFound message with
  | none => 0
  | some ds => intOrZero ds

/-- `extract_first(pattern, text, default)`: the stripped first capture, or the
default when the pattern does not occur. -/
def extract_first (found : Option (List Char)) (default : List Char) : List Char :=
  match found with
  | none => default
  | some v => pyStrip v

/-- Python's `str.lower()` (restricted to the ASCII range, which covers every
marker substring the classifier inspects). -/
def pyLower (message : List Char) : List Char := message.map Char.toLower

/-- `classify_error`: first-match chain over the lowercased message. -/
def classify_error (message : List Char) : List Char :=
  let lowered := pyLower message
  if containsSub ("unknownhostexception".toList) lowered ||
      containsSub ("unable to resolve host".toList) lowered then "dns".toList
  else if containsSub ("timeout".toList) lowered ||
      containsSub ("timed out".toList) lowered then "timeout".toList
  else if containsSub ("http 429".toList) lowered ||
      containsSub ("rate".toList) lowered then "rate_limit".toList
  else if containsSub ("http 403".toList) lowered then "http_forbidden".toList
  else if containsSub ("http 401".toList) lowered then "http_unauthorized".toList
  else if containsSub ("ssl".toList) lowered then "tls_ssl".toList
  else if containsSub ("network io".toList) lowered then "network_io".toList
  else "other".toList

/-- A raw decoded line: the four capture groups of `LINE_RE`. -/
structure RawEvent where
  ts : List Char
  status : List Char
  playlist : List Char
  msg : List Char
deriving DecidableEq, Repr

/-- Skip leading whitespace (`\s*`). -/
def skipWs (l : List Char) : List Char := l.dropWhile isPySpace

/-- Greedy `p+` token: fails when no character matches. -/
def token (p : Char → Bool) (l : List Char) : Option (List Char × List Char) :=
  let t := l.takeWhile p
  if t = [] then none else some (t, l.dropWhile p)

/-- Expect a literal `|`. -/
def expectBar : List Char → Option (List Char)
  | '|' :: r => some r
  | _ => none

/-- Expect a literal key. -/
def expectLit (key : List Char) (l : List Char) : Option (List Char) :=
  if startsWith key l then some (l.drop key.length) else none

/-- `LINE_RE.match`: `^\s*(\d+)\s*\|\s*([a-zA-Z0-9_]+)\s*\|\s*playlist=([^|]*)\|\s*(.*)$`. -/
def decodeChars (line : List Char) : Option RawEvent := do
  let (ts, r1) ← token isDigitC (skipWs line)
  let r2 ← expectBar (skipWs r1)
  let (st, r3) ← token isStatusChar (skipWs r2)
  let r4 ← expectBar (skipWs r3)
  let r5 ← expectLit ("playlist=".toList) (skipWs r4)
  let pl := r5.takeWhile (fun c => !(c == '|'))
  let r6 ← expectBar (r5.dropWhile (fun c => !(c == '|')))
  some { ts := ts, status := st, playlist := pl, msg := skipWs r6 }

/-- `AttemptState` of the source. -/
structure AttemptState where
  attempt_id : Nat
  started_at : Nat
  query : List Char
  provider : List Char
  mode : List Char
  preset : List Char
  found : Nat
  errors : List (List Char)
  statuses : List (List Char)
  raw_messages : List (List Char)
deriving DecidableEq, Repr

/-- One emitted dict of `parse_lines` (the unit the aggregator consumes). -/
structure Row where
  attempt : Nat
  started_at : Nat
  finished_at : Nat
  query : List Char
  provider : List Char
  mode : List Char
  preset : List Char
  found : Nat
  label : List Char
  error_type : List Char
  error : List Char
  statuses : List (List Char)
deriving DecidableEq, Repr

/-- The fold state of `parse_lines`: the live `attempts` dict and the
`emitted` list. -/
structure PState where
  attempts : List (Nat × AttemptState)
  emitted : List Row
deriving DecidableEq, Repr

/-- Dict lookup (`attempts.get`). -/
def dictFind (d : List (Nat × AttemptState)) (k : Nat) : Option AttemptState :=
  (d.find? (fun p => p.1 == k)).map (fun p => p.2)

/-- Remove a key (`attempts.pop(k, None)`). -/
def dictPop (d : List (Nat × AttemptState)) (k : Nat) : List (Nat × AttemptState) :=
  d.filter (fun p => !(p.1 == k))

/-- Overwriting insertion (`attempts[k] = v`). -/
def dictSet (d : List (Nat × AttemptState)) (k : Nat) (v : AttemptState) :
    List (Nat × AttemptState) :=
  (k, v) :: dictPop d k

/-- `k in attempts`. -/
def dictContains (d : List (Nat × AttemptState)) (k : Nat) : Bool :=
  (dictFind d k).isSome

/-- The success-like status set of line 138 of the source. -/
def successStatuses : List (List Char) :=
  ["scanner_ok".toList, "scanner_finish".toList, "scanner_step_ok".toList]

/-- The error-like status set of lines 141-149 of the source. -/
def errorStatuses : List (List Char) :=
  ["scanner_error".toList, "scanner_fatal".toList, "scanner_step_error".toList,
   "scanner_provider_error".toList, "scanner_provider_timeout".toList,
   "scanner_fail_fast".toList, "scanner_timeout".toList]

/-- The `AttemptState` created by a `scanner_start` event (lines 112-128). -/
def startState (id ts : Nat) (status msg : List Char) : AttemptState :=
  { attempt_id := id
    started_at := ts
    query := normalize_query (extract_first (searchKey ("query=".toList) isQueryChar msg) [])
    provider := extract_first (searchKey ("provider=".toList) isUpperTok msg) ("ALL".toList)
    mode := extract_first (searchKey ("mode=".toList) isUpperTok msg) ("AUTO".toList)
    preset := extract_first (searchKey ("preset=".toList) isPresetChar msg) ("-".toList)
    found := 0
    errors := []
    statuses := [status]
    raw_messages := [msg] }

/-- History append of lines 135-136: every event for a live id appends its
status token and payload. -/
def histUpd (st : AttemptState) (status msg : List Char) : AttemptState :=
  { st with
    statuses := st.statuses ++ [status]
    raw_messages := st.raw_messages ++ [msg] }

/-- Found update of lines 138-139: success-like statuses raise `found` to the
payload's count. -/
def foundUpd (st : AttemptState) (status msg : List Char) : AttemptState :=
  if status ∈ successStatuses then
    { st with found := max st.found (parse_found_count msg) }
  else st

/-- Error append of lines 141-150: error-like statuses record the payload. -/
def errorUpd (st : AttemptState) (status msg : List Char) : AttemptState :=
  if status ∈ errorStatuses then { st with errors := st.errors ++ [msg] } else st

/-- The in-place mutation of a live state by a non-start event
(lines 134-150: history append, then found update, then error append). -/
def updateState (state0 : AttemptState) (status msg : List Char) : AttemptState :=
  errorUpd (foundUpd (histUpd state0 status msg) status msg) status msg

/-- The dict appended by the `scanner_finish` branch (lines 152-171). -/
def emitRecord (state : AttemptState) (ts : Nat) : Row :=
  let label :=
    if state.found > 0 then "success".toList
    else if state.errors ≠ [] then "failed".toList
    else "empty".toList
  let primary_error := state.errors.getLastD []
  let error_type := if primary_error ≠ [] then classify_error primary_error else []
  { attempt := state.attempt_id
    started_at := state.started_at
    finished_at := ts
    query := state.query
    provider := state.provider
    mode := state.mode
    preset := state.preset
    found := state.found
    label := label
    error_type := error_type
    error := primary_error.take 1000
    statuses := state.statuses }

/-- One decoded event processed by the loop body of `parse_lines`. -/
def stepEvent (ps : PState) (ev : RawEvent) : PState :=
  let ts := digitsToNat ev.ts
  let status := pyStrip ev.status
  let msg := pyStrip ev.msg
  if status = "scanner_start".toList then
    match parse_attempt_id msg with
    | none => ps
    | some id => { ps with attempts := dictSet ps.attempts id (startState id ts status msg) }
  else
    match parse_attempt_id msg with
    | none => ps
    | some id =>
      match dictFind ps.attempts id with
      | none => ps
      | some state0 =>
        let state3 := updateState state0 status msg
        if status = "scanner_finish".toList then
          { attempts := dictPop ps.attempts id
            emitted := ps.emitted ++ [emitRecord state3 ts] }
        else { ps with attempts := dictSet ps.attempts id state3 }

/-- One input line processed by `parse_lines`: non-matching lines are skipped. -/
def stepLine (ps : PState) (line : List Char) : PState :=
  match decodeChars line with
  | none => ps
  | some ev => stepEvent ps ev

/-- The initial fold state: empty dict, nothing emitted. -/
def initPS : PState := ⟨[], []⟩

/-- `parse_lines`: fold the lines and return the emitted records. -/
def parse_lines (lines : List (List Char)) : List Row :=
  (lines.foldl stepLine initPS).emitted

/-! ### Exception-instrumented semantics

The loop body of `parse_lines` contains three operations that the Python
runtime could in principle fail on: `int(m.group("ts"))`, the raw dict
access `attempts[attempt_id]`, and the last-element access
`state.errors[-1]`.  The variants below raise (return `.error`) exactly
where the interpreter would raise, so that totality of the pipeline is a
theorem rather than a modelling artefact. -/

/-- `int(s)`: succeeds exactly on non-empty digit strings, else `ValueError`. -/
def intE (ds : List Char) : Except (List Char) Nat :=
  if ds ≠ [] ∧ ds.all isDigitC then Except.ok (digitsToNat ds)
  else Except.error ("ValueError".toList)

/-- Raw dict access `d[k]`: `KeyError` on a missing key. -/
def dictGetE (d : List (Nat × AttemptState)) (k : Nat) : Except (List Char) AttemptState :=
  match dictFind d k with
  | none => Except.error ("KeyError".toList)
  | some v => Except.ok v

/-- `l[-1]`: `IndexError` on an empty list. -/
def lastE (l : List (List Char)) : Except (List Char) (List Char) :=
  match l.getLast? with
  | none => Except.error ("IndexError".toList)
  | some e => Except.ok e

/-- `emitRecord` with the guarded `errors[-1]` access made explicit. -/
def emitRecordE (state : AttemptState) (ts : Nat) : Except (List Char) Row := do
  let label :=
    if state.found > 0 then "success".toList
    else if state.errors ≠ [] then "failed".toList
    else "empty".toList
  let primary_error ← if state.errors ≠ [] then lastE state.errors else pure []
  let error_type := if primary_error ≠ [] then classify_error primary_error else []
  pure { attempt := state.attempt_id
         started_at := state.started_at
         finished_at := ts
         query := state.query
         provider := state.provider
         mode := state.mode
         preset := state.preset
         found := state.found
         label := label
         error_type := error_type
         error := primary_error.take 1000
         statuses := state.statuses }

/-- `stepEvent` with every potentially raising operation made explicit. -/
def stepEventE (ps : PState) (ev : RawEvent) : Except (List Char) PState := do
  let ts ← intE ev.ts
  let status := pyStrip ev.status
  let msg := pyStrip ev.msg
  if status = "scanner_start".toList then
    match parse_attempt_id msg with
    | none => pure ps
    | some id =>
      pure { ps with attempts := dictSet ps.attempts id (startState id ts status msg) }
  else
    match parse_attempt_id msg with
    | none => pure ps
    | some id =>
      if dictContains ps.attempts id then do
        let state0 ← dictGetE ps.attempts id
        let state3 := updateState state0 status msg
        if status = "scanner_finish".toList then do
          let row ← emitRecordE state3 ts
          pure { attempts := dictPop ps.attempts id
                 emitted := ps.emitted ++ [row] }
        else pure { ps with attempts := dictSet ps.attempts id state3 }
      else pure ps

/-- `stepLine` over the raising semantics. -/
def stepLineE (ps : PState) (line : List Char) : Except (List Char) PState :=
  match decodeChars line with
  | none => pure ps
  | some ev => stepEventE ps ev

/-- `parse_lines` over the raising semantics. -/
def parse_linesE (lines : List (List Char)) : Except (List Char) (List Row) := do
  let ps ← lines.foldlM stepLineE initPS
  pure ps.emitted

/-! ### Aggregator / reporter (`build_summary`, jsonl export) -/

/-- Add one key to a counter (`collections.Counter`), keeping keys in
first-encounter order. -/
def counterAdd (c : List (List Char × Nat)) (k : List Char) : List (List Char × Nat) :=
  match c with
  | [] => [(k, 1)]
  | (k', n) :: rest => if k' = k then (k', n + 1) :: rest else (k', n) :: counterAdd rest k

/-- `Counter(iterable)`. -/
def counterOf (xs : List (List Char)) : List (List Char × Nat) :=
  xs.foldl counterAdd []

/-- Insert while keeping counts descending; ties stay behind existing equals,
which makes the sort below stable like Python's `sorted`. -/
def insertDesc (x : List Char × Nat) : List (List Char × Nat) → List (List Char × Nat)
  | [] => [x]
  | y :: ys => if y.2 < x.2 then x :: y :: ys else y :: insertDesc x ys

/-- Stable sort by count, descending: `Counter.most_common()`. -/
def sortDesc (l : List (List Char × Nat)) : List (List Char × Nat) :=
  l.foldl (fun acc x => insertDesc x acc) []

/-- `Counter.most_common(n)`. -/
def mostCommonN (c : List (List Char × Nat)) (n : Nat) : List (List Char × Nat) :=
  (sortDesc c).take n

/-- Decimal rendering of a count for the report (`f"{n}"`). -/
def natChars (n : Nat) : List Char := Nat.toDigits 10 n

/-- `"\n".join(lines)`. -/
def joinNl (ls : List (List Char)) : List Char := List.intercalate ['\n'] ls

/-- `build_summary` of the source: the Markdown report. -/
def build_summary (entries : List Row) : List Char :=
  if entries = [] then
    "# AI training summary\n\nНет завершённых попыток scanner_finish в логе.\n".toList
  else
    let total := entries.length
    let successes := entries.filter (fun x => x.label == "success".toList)
    let failures := entries.filter (fun x => x.label == "failed".toList)
    let empties := entries.filter (fun x => x.label == "empty".toList)
    let success_queries := counterOf ((successes.filter (fun x => !(x.query == []))).map (fun x => x.query))
    let fail_types := counterOf ((failures.filter (fun x => !(x.error_type == []))).map (fun x => x.error_type))
    let providers := counterOf (entries.map (fun x => x.provider))
    let modes := counterOf (entries.map (fun x => x.mode))
    let base : List (List Char) :=
      ["# AI training summary".toList,
       [],
       "- Всего попыток: ".toList ++ natChars total,
       "- Успешных (found>0): ".toList ++ natChars successes.length,
       "- Пустых (found=0, без явной ошибки): ".toList ++ natChars empties.length,
       "- Ошибок: ".toList ++ natChars failures.length,
       [],
       "## Топ успешных запросов".toList]
    let sq :=
      if success_queries ≠ [] then
        (mostCommonN success_queries 10).map
          (fun qc => "- `".toList ++ qc.1 ++ "`: ".toList ++ natChars qc.2)
      else ["- нет данных".toList]
    let ft :=
      if fail_types ≠ [] then
        (mostCommonN fail_types 10).map
          (fun rc => "- `".toList ++ rc.1 ++ "`: ".toList ++ natChars rc.2)
      else ["- нет данных".toList]
    let pv := (sortDesc providers).map
      (fun pc => "- `".toList ++ pc.1 ++ "`: ".toList ++ natChars pc.2)
    let md := (sortDesc modes).map
      (fun mc => "- `".toList ++ mc.1 ++ "`: ".toList ++ natChars mc.2)
    let tail : List (List Char) :=
      [[],
       "## Рекомендация по обучению".toList,
       "- Используйте только запросы с `label=success` для пополнения шаблонов `LocalAiQueryAssistant`.".toList,
       "- Для `dns/timeout` не обучайте AI-формулировки, сначала исправьте сеть/DNS/прокси.".toList,
       "- Новые AI-варианты добавляйте партиями по 3-5 и проверяйте успех до/после.".toList]
    joinNl (base ++ sq ++
      ([[], "## Частые причины ошибок".toList] ++ ft) ++
      ([[], "## Распределение по provider".toList] ++ pv) ++
      ([[], "## Распределение по mode".toList] ++ md) ++ tail) ++ ['\n']

/-- The jsonl export of `main`: one row per emitted record, order preserved. -/
def exportRows (entries : List Row) : List Row := entries

/-- The core pipeline: attempt reconstruction followed by summary generation. -/
def pipeline (lines : List (List Char)) : List Row × List Char :=
  (parse_lines lines, build_summary (parse_lines lines))

/-- The core pipeline over the raising semantics. -/
def pipelineE (lines : List (List Char)) : Except (List Char) (List Row × List Char) := do
  let rows ← parse_linesE lines
  pure (rows, build_summary rows)

/-! ### Spec-side characterisations and invariants -/

/-- Modelled from the spec: the classification chain as an ordered list of
(predicate, category) pairs, first match wins, catch-all `other`
(§4.2 of the specification). -/
def specChain : List ((List Char → Bool) × List Char) :=
  [(fun lowered => containsSub ("unknownhostexception".toList) lowered ||
      containsSub ("unable to resolve host".toList) lowered, "dns".toList),
   (fun lowered => containsSub ("timeout".toList) lowered ||
      containsSub ("timed out".toList) lowered, "timeout".toList),
   (fun lowered => containsSub ("http 429".toList) lowered ||
      containsSub ("rate".toList) lowered, "rate_limit".toList),
   (fun lowered => containsSub ("http 403".toList) lowered, "http_forbidden".toList),
   (fun lowered => containsSub ("http 401".toList) lowered, "http_unauthorized".toList),
   (fun lowered => containsSub ("ssl".toList) lowered, "tls_ssl".toList),
   (fun lowered => containsSub ("network io".toList) lowered, "network_io".toList)]

/-- Modelled from the spec: classify by the first matching pair of `specChain`. -/
def classifySpec (message : List Char) : List Char :=
  let lowered := pyLower message
  match specChain.find? (fun pc => pc.1 lowered) with
  | some pc => pc.2
  | none => "other".toList

/-- Modelled from the spec (claim C8's words): the captured query field with
surrounding whitespace removed, internal whitespace collapsed and trailing
punctuation stripped — leading punctuation untouched. -/
def specNormalize (v : List Char) : List Char :=
  dropEndWhile qstripChar (collapseWs (pyStrip v))

/-- No double spaces anywhere in the list. -/
def noDoubleSpace : List Char → Bool
  | c1 :: c2 :: rest => !(c1 == ' ' && c2 == ' ') && noDoubleSpace (c2 :: rest)
  | _ => true

/-- A query value made of single-space-separated words with no leading or
trailing punctuation: non-empty, every whitespace character is a plain
space, no two adjacent spaces, and neither end is a space/punctuation
character of the strip set. -/
def goodQueryValue (v : List Char) : Bool :=
  match v with
  | [] => false
  | c :: _ =>
    !(qstripChar c) &&
    (match v.getLast? with
     | some d => !(qstripChar d)
     | none => true) &&
    v.all (fun a => !(isPySpace a) || a == ' ') &&
    noDoubleSpace v

/-- Does this line decode to a `scanner_finish` event whose payload carries
attempt id `i`? -/
def isFinishFor (i : Nat) (line : List Char) : Bool :=
  match decodeChars line with
  | none => false
  | some ev =>
    pyStrip ev.status == "scanner_finish".toList &&
      parse_attempt_id (pyStrip ev.msg) == some i

/-- `JunkExtends big small`: `big` is `small` with lines that `LINE_RE`
rejects inserted at arbitrary positions. -/
inductive JunkExtends : List (List Char) → List (List Char) → Prop
  | nil : JunkExtends [] []
  | keep (l : List Char) {xs ys : List (List Char)} :
      JunkExtends xs ys → JunkExtends (l :: xs) (l :: ys)
  | junk (l : List Char) {xs ys : List (List Char)} :
      decodeChars l = none → JunkExtends xs ys → JunkExtends (l :: xs) ys

/-- The running maximum the spec describes for `found`: fold the attempt's
(status, payload) history, taking counts only from success-like events. -/
def foundSpec (history : List (List Char × List Char)) : Nat :=
  history.foldl
    (fun acc p => if p.1 ∈ successStatuses then max acc (parse_found_count p.2) else acc) 0

/-- Invariant of every live `AttemptState`. -/
def StateOK (st : AttemptState) : Prop :=
  st.statuses.length = st.raw_messages.length ∧
  st.statuses.head? = some ("scanner_start".toList) ∧
  st.found = foundSpec (st.statuses.zip st.raw_messages) ∧
  (∀ e ∈ st.errors, e ≠ []) ∧
  (∀ e ∈ st.errors, e ∈ st.raw_messages)

/-- The pair `p` (status token, stripped payload) is carried by some input
line: the line decodes, its status and payload are `p`, and the payload's
attempt id is `id`. -/
def EventOf (lines : List (List Char)) (id : Nat) (p : List Char × List Char) : Prop :=
  ∃ line ∈ lines, ∃ ev, decodeChars line = some ev ∧
    pyStrip ev.status = p.1 ∧ pyStrip ev.msg = p.2 ∧
    parse_attempt_id p.2 = some id

/-- Every emitted row comes from closing a well-formed state on a
`scanner_finish` event of some input line, and its whole (status, payload)
history consists of decoded events of the input that carry the row's
attempt id. -/
def RowOK (lines : List (List Char)) (r : Row) : Prop :=
  ∃ st ts, StateOK st ∧
    st.statuses.getLast? = some ("scanner_finish".toList) ∧
    r = emitRecord st ts ∧
    (∀ p ∈ st.statuses.zip st.raw_messages, EventOf lines r.attempt p) ∧
    ∃ line ∈ lines, ∃ ev, decodeChars line = some ev ∧
      pyStrip ev.status = "scanner_finish".toList ∧
      parse_attempt_id (pyStrip ev.msg) = some r.attempt

/-- Invariant of the whole fold state after processing `lines`. -/
def PSOK (lines : List (List Char)) (ps : PState) : Prop :=
  (∀ id st, dictFind ps.attempts id = some st → st.attempt_id = id ∧ StateOK st ∧
    ∀ p ∈ st.statuses.zip st.raw_messages, EventOf lines id p) ∧
  (∀ r ∈ ps.emitted, RowOK lines r)

/-! ### Demonstration inputs (the spec's own scenarios) used by witnesses -/

/-- Scenario line: start of attempt 1. -/
def demoStart : List Char :=
  "100 | scanner_start | playlist=- | attempt=1, query=foo, provider=ALL, mode=AUTO".toList

/-- Scenario line: finish of attempt 1 with five results. -/
def demoFinish : List Char :=
  "200 | scanner_finish | playlist=- | attempt=1, results=5".toList

/-- The record the two scenario lines produce. -/
def demoRow : Row :=
  { attempt := 1
    started_at := 100
    finished_at := 200
    query := "foo".toList
    provider := "ALL".toList
    mode := "AUTO".toList
    preset := "-".toList
    found := 5
    label := "success".toList
    error_type := []
    error := []
    statuses := ["scanner_start".toList, "scanner_finish".toList] }

/-- Scenario lines: attempt 2 fails on a DNS error. -/
def demoStart2 : List Char :=
  "300 | scanner_start | playlist=- | attempt=2, query=bar".toList

/-- Fatal event for attempt 2. -/
def demoFatal2 : List Char :=
  "310 | scanner_fatal | playlist=- | attempt=2, throwable=UnknownHostException: x".toList

/-- Finish event for attempt 2 with zero results. -/
def demoFinish2 : List Char :=
  "320 | scanner_finish | playlist=- | attempt=2, results=0".toList

/-- The record the attempt-2 scenario produces. -/
def demoRow2 : Row :=
  { attempt := 2
    started_at := 300
    finished_at := 320
    query := "bar".toList
    provider := "ALL".toList
    mode := "AUTO".toList
    preset := "-".toList
    found := 0
    label := "failed".toList
    error_type := "dns".toList
    error := "attempt=2, throwable=UnknownHostException: x".toList
    statuses := ["scanner_start".toList, "scanner_fatal".toList, "scanner_finish".toList] }

/-- Scenario line: start of attempt 3 that never finishes. -/
def demoStart3 : List Char :=
  "400 | scanner_start | playlist=- | attempt=3, query=baz".toList

/-- A line with none of the expected structure. -/
def junkLine1 : List Char := "this is not an event".toList

/-- A line that starts like an event but whose status breaks off at a hyphen,
so the `| playlist=` part is never reached. -/
def junkLine2 : List Char := "123 | bad-status | nope".toList

/-- Start line whose query value carries leading punctuation. -/
def cexStart : List Char :=
  "100 | scanner_start | playlist=- | attempt=1, query=.ab".toList

/-- A decoded start event used to exercise the query capture. -/
def demoEv : RawEvent :=
  { ts := "100".toList
    status := "scanner_start".toList
    playlist := "-".toList
    msg := "attempt=1, query=foo bar".toList }

/-! ### Dictionary lemmas -/

theorem find?_filter_of_imp {α : Type} (l : List α) (p q : α → Bool)
    (h : ∀ x, p x = true → q x = true) :
    List.find? p (l.filter q) = List.find? p l := by
  induction l with
  | nil => rfl
  | cons a l ih =>
    by_cases hq : q a = true
    · rw [List.filter_cons, if_pos hq]
      by_cases hp : p a = true
      · rw [List.find?_cons_of_pos _ hp, List.find?_cons_of_pos _ hp]
      · rw [List.find?_cons_of_neg _ hp, List.find?_cons_of_neg _ hp, ih]
    · rw [List.filter_cons, if_neg hq, ih]
      rw [List.find?_cons_of_neg]
      intro hp
      exact hq (h a hp)

theorem dictFind_set_self (d : List (Nat × AttemptState)) (k : Nat) (v : AttemptState) :
    dictFind (dictSet d k v) k = some v := by
  simp [dictFind, dictSet, List.find?]

theorem dictFind_set_ne (d : List (Nat × AttemptState)) (k : Nat) (v : AttemptState)
    (k' : Nat) (h : k' ≠ k) : dictFind (dictSet d k v) k' = dictFind d k' := by
  unfold dictFind dictSet dictPop
  rw [List.find?_cons_of_neg]
  · rw [find?_filter_of_imp]
    intro x hx
    simp only [beq_iff_eq] at hx ⊢
    simp [hx, h]
  · simp [h, Ne.symm h]

theorem dictFind_pop_self (d : List (Nat × AttemptState)) (k : Nat) :
    dictFind (dictPop d k) k = none := by
  unfold dictFind dictPop
  rw [List.find?_eq_none.mpr]
  · rfl
  · intro x hx
    have := List.of_mem_filter hx
    simp only [Bool.not_eq_true', beq_eq_false_iff_ne] at this
    simp [this]

theorem dictFind_pop_ne (d : List (Nat × AttemptState)) (k : Nat)
    (k' : Nat) (h : k' ≠ k) : dictFind (dictPop d k) k' = dictFind d k' := by
  unfold dictFind dictPop
  rw [find?_filter_of_imp]
  intro x hx
  simp only [beq_iff_eq] at hx ⊢
  simp [hx, h]

/-! ### Facts about the decoders -/

theorem token_eq_some {p : Char → Bool} {l t rest : List Char}
    (h : token p l = some (t, rest)) :
    t = l.takeWhile p ∧ rest = l.dropWhile p ∧ t ≠ [] := by
  unfold token at h
  by_cases hni : l.takeWhile p = []
  · simp [hni] at h
  · simp only [hni, if_neg, ite_false, Option.some.injEq, Prod.mk.injEq] at h
    exact ⟨h.1.symm, h.2.symm, h.1 ▸ hni⟩

theorem decodeChars_ts {line : List Char} {ev : RawEvent}
    (h : decodeChars line = some ev) :
    ev.ts ≠ [] ∧ ev.ts.all isDigitC = true := by
  unfold decodeChars at h
  simp only [bind, Option.bind_eq_some] at h
  obtain ⟨⟨ts, r1⟩, h1, h⟩ := h
  obtain ⟨r2, h2, h⟩ := h
  obtain ⟨⟨st, r3⟩, h3, h⟩ := h
  obtain ⟨r4, h4, h⟩ := h
  obtain ⟨r5, h5, h⟩ := h
  obtain ⟨r6, h6, h⟩ := h
  obtain ⟨hts, -, -⟩ := token_eq_some h1
  have hev : ev.ts = ts := by
    cases h
    rfl
  rw [hev, hts]
  constructor
  · rw [← hts]
    exact (token_eq_some h1).2.2
  · exact List.all_eq_true.mpr fun x hx => List.mem_takeWhile_imp hx

theorem parse_attempt_id_ne_nil {msg : List Char} {id : Nat}
    (h : parse_attempt_id msg = some id) : msg ≠ [] := by
  intro hnil
  rw [hnil] at h
  simp [parse_attempt_id, searchKey] at h

/-! ### Facts about the state updates -/

theorem foundSpec_concat (hist : List (List Char × List Char)) (p : List Char × List Char) :
    foundSpec (hist ++ [p]) =
      if p.1 ∈ successStatuses then max (foundSpec hist) (parse_found_count p.2)
      else foundSpec hist := by
  unfold foundSpec
  rw [List.foldl_append]
  rfl

theorem updateState_statuses (st : AttemptState) (status msg : List Char) :
    (updateState st status msg).statuses = st.statuses ++ [status] := by
  simp only [updateState, errorUpd, foundUpd, histUpd]
  split <;> split <;> rfl

theorem updateState_raw_messages (st : AttemptState) (status msg : List Char) :
    (updateState st status msg).raw_messages = st.raw_messages ++ [msg] := by
  simp only [updateState, errorUpd, foundUpd, histUpd]
  split <;> split <;> rfl

theorem updateState_attempt_id (st : AttemptState) (status msg : List Char) :
    (updateState st status msg).attempt_id = st.attempt_id := by
  simp only [updateState, errorUpd, foundUpd, histUpd]
  split <;> split <;> rfl

theorem updateState_found (st : AttemptState) (status msg : List Char) :
    (updateState st status msg).found =
      if status ∈ successStatuses then max st.found (parse_found_count msg)
      else st.found := by
  simp only [updateState, errorUpd, foundUpd, histUpd]
  split <;> split <;> rfl

theorem updateState_errors (st : AttemptState) (status msg : List Char) :
    (updateState st status msg).errors =
      if status ∈ errorStatuses then st.errors ++ [msg] else st.errors := by
  simp only [updateState, errorUpd, foundUpd, histUpd]
  split <;> split <;> rfl

theorem statuses_ne_nil_of_head {st : AttemptState}
    (h : st.statuses.head? = some ("scanner_start".toList)) : st.statuses ≠ [] := by
  intro hnil
  rw [hnil] at h
  simp at h

theorem stateOK_startState (id ts : Nat) (msg : List Char) :
    StateOK (startState id ts ("scanner_start".toList) msg) := by
  refine ⟨rfl, rfl, ?_, by simp [startState], by simp [startState]⟩
  show (0 : Nat) = foundSpec [("scanner_start".toList, msg)]
  have : foundSpec [("scanner_start".toList, msg)] =
      if ("scanner_start".toList ∈ successStatuses) then
        max 0 (parse_found_count msg)
      else 0 := rfl
  rw [this, if_neg (by decide)]

theorem stateOK_updateState {st : AttemptState} (h : StateOK st) (status : List Char)
    {msg : List Char} (hmsg : msg ≠ []) : StateOK (updateState st status msg) := by
  obtain ⟨hlen, hhead, hfound, herr, hsub⟩ := h
  refine ⟨?_, ?_, ?_, ?_, ?_⟩
  · rw [updateState_statuses, updateState_raw_messages]
    simp [hlen]
  · rw [updateState_statuses,
      List.head?_append_of_ne_nil _ (statuses_ne_nil_of_head hhead)]
    exact hhead
  · rw [updateState_found, updateState_statuses, updateState_raw_messages,
      List.zip_append hlen]
    have hz : [status].zip [msg] = [(status, msg)] := rfl
    rw [hz, foundSpec_concat, ← hfound]
  · rw [updateState_errors]
    split
    · intro e he
      rcases List.mem_append.mp he with h1 | h1
      · exact herr e h1
      · rw [List.mem_singleton.mp h1]
        exact hmsg
    · exact herr
  · rw [updateState_errors, updateState_raw_messages]
    split
    · intro e he
      rcases List.mem_append.mp he with h1 | h1
      · exact List.mem_append.mpr (Or.inl (hsub e h1))
      · exact List.mem_append.mpr (Or.inr h1)
    · intro e he
      exact List.mem_append.mpr (Or.inl (hsub e he))

/-! ### Branch reductions for `stepEvent` and projections of `emitRecord` -/

theorem stepEvent_noId {ps : PState} {ev : RawEvent}
    (hid : parse_attempt_id (pyStrip ev.msg) = none) : stepEvent ps ev = ps := by
  simp only [stepEvent, hid]
  split <;> rfl

theorem stepEvent_start {ps : PState} {ev : RawEvent} {id : Nat}
    (hstart : pyStrip ev.status = "scanner_start".toList)
    (hid : parse_attempt_id (pyStrip ev.msg) = some id) :
    stepEvent ps ev =
      PState.mk
        (dictSet ps.attempts id
          (startState id (digitsToNat ev.ts) (pyStrip ev.status) (pyStrip ev.msg)))
        ps.emitted := by
  simp only [stepEvent, hid, if_pos hstart]

theorem stepEvent_notLive {ps : PState} {ev : RawEvent} {id : Nat}
    (hstart : pyStrip ev.status ≠ "scanner_start".toList)
    (hid : parse_attempt_id (pyStrip ev.msg) = some id)
    (hfind : dictFind ps.attempts id = none) : stepEvent ps ev = ps := by
  simp only [stepEvent, hid, if_neg hstart, hfind]

theorem stepEvent_finish {ps : PState} {ev : RawEvent} {id : Nat} {state0 : AttemptState}
    (hfin : pyStrip ev.status = "scanner_finish".toList)
    (hid : parse_attempt_id (pyStrip ev.msg) = some id)
    (hfind : dictFind ps.attempts id = some state0) :
    stepEvent ps ev =
      { attempts := dictPop ps.attempts id
        emitted := ps.emitted ++
          [emitRecord (updateState state0 (pyStrip ev.status) (pyStrip ev.msg))
            (digitsToNat ev.ts)] } := by
  have hstart : pyStrip ev.status ≠ "scanner_start".toList := by
    rw [hfin]
    decide
  simp only [stepEvent, hid, if_neg hstart, hfind, if_pos hfin]

theorem stepEvent_update {ps : PState} {ev : RawEvent} {id : Nat} {state0 : AttemptState}
    (hstart : pyStrip ev.status ≠ "scanner_start".toList)
    (hfin : pyStrip ev.status ≠ "scanner_finish".toList)
    (hid : parse_attempt_id (pyStrip ev.msg) = some id)
    (hfind : dictFind ps.attempts id = some state0) :
    stepEvent ps ev =
      PState.mk
        (dictSet ps.attempts id (updateState state0 (pyStrip ev.status) (pyStrip ev.msg)))
        ps.emitted := by
  simp only [stepEvent, hid, if_neg hstart, hfind, if_neg hfin]

theorem emitRecord_attempt (st : AttemptState) (ts : Nat) :
    (emitRecord st ts).attempt = st.attempt_id := rfl

theorem emitRecord_found (st : AttemptState) (ts : Nat) :
    (emitRecord st ts).found = st.found := rfl

theorem emitRecord_statuses (st : AttemptState) (ts : Nat) :
    (emitRecord st ts).statuses = st.statuses := rfl

theorem emitRecord_label (st : AttemptState) (ts : Nat) :
    (emitRecord st ts).label =
      if st.found > 0 then "success".toList
      else if st.errors ≠ [] then "failed".toList
      else "empty".toList := rfl

theorem emitRecord_error_type (st : AttemptState) (ts : Nat) :
    (emitRecord st ts).error_type =
      if st.errors.getLastD [] ≠ [] then classify_error (st.errors.getLastD []) else [] := rfl

theorem emitRecord_error (st : AttemptState) (ts : Nat) :
    (emitRecord st ts).error = (st.errors.getLastD []).take 1000 := rfl

/-! ### The master invariant -/

theorem eventOf_mono {lines : List (List Char)} {id : Nat} {p : List Char × List Char}
    (h : EventOf lines id p) (l : List Char) : EventOf (lines ++ [l]) id p := by
  obtain ⟨line, hline, ev, h1, h2, h3, h4⟩ := h
  exact ⟨line, List.mem_append.mpr (Or.inl hline), ev, h1, h2, h3, h4⟩

theorem psok_mono {lines : List (List Char)} {ps : PState} (h : PSOK lines ps)
    (l : List Char) : PSOK (lines ++ [l]) ps := by
  obtain ⟨hmap, hrow⟩ := h
  refine ⟨fun id st hf => ?_, fun r hr => ?_⟩
  · obtain ⟨ha, hb, hc⟩ := hmap id st hf
    exact ⟨ha, hb, fun p hp => eventOf_mono (hc p hp) l⟩
  · obtain ⟨st, ts, h1, h2, h3, hhist, line, hline, hrest⟩ := hrow r hr
    exact ⟨st, ts, h1, h2, h3, fun p hp => eventOf_mono (hhist p hp) l,
      line, List.mem_append.mpr (Or.inl hline), hrest⟩

theorem psok_step {lines : List (List Char)} {ps : PState} (h : PSOK lines ps)
    (l : List Char) : PSOK (lines ++ [l]) (stepLine ps l) := by
  cases hdec : decodeChars l with
  | none =>
    simp only [stepLine, hdec]
    exact psok_mono h l
  | some ev =>
    simp only [stepLine, hdec]
    cases hid : parse_attempt_id (pyStrip ev.msg) with
    | none =>
      rw [stepEvent_noId hid]
      exact psok_mono h l
    | some id =>
      have hmsg : pyStrip ev.msg ≠ [] := parse_attempt_id_ne_nil hid
      have hself : EventOf (lines ++ [l]) id (pyStrip ev.status, pyStrip ev.msg) :=
        ⟨l, List.mem_append.mpr (Or.inr (List.mem_singleton.mpr rfl)), ev, hdec,
          rfl, rfl, hid⟩
      by_cases hstart : pyStrip ev.status = "scanner_start".toList
      · rw [stepEvent_start hstart hid]
        refine ⟨?_, (psok_mono h l).2⟩
        intro id' st' hfind
        by_cases hidq : id' = id
        · subst hidq
          rw [dictFind_set_self] at hfind
          cases hfind
          refine ⟨rfl,
            hstart ▸ stateOK_startState id' (digitsToNat ev.ts) (pyStrip ev.msg), ?_⟩
          intro p hp
          have hp' : p = (pyStrip ev.status, pyStrip ev.msg) := by
            simpa [startState] using hp
          rw [hp']
          exact hself
        · rw [dictFind_set_ne _ _ _ _ hidq] at hfind
          exact (psok_mono h l).1 id' st' hfind
      · cases hfind0 : dictFind ps.attempts id with
        | none =>
          rw [stepEvent_notLive hstart hid hfind0]
          exact psok_mono h l
        | some state0 =>
          obtain ⟨hsid, hsok, hhist0⟩ := h.1 id state0 hfind0
          have hsok3 := stateOK_updateState hsok (pyStrip ev.status) hmsg
          have hhist3 : ∀ p ∈ (updateState state0 (pyStrip ev.status)
              (pyStrip ev.msg)).statuses.zip (updateState state0 (pyStrip ev.status)
              (pyStrip ev.msg)).raw_messages, EventOf (lines ++ [l]) id p := by
            intro p hp
            rw [updateState_statuses, updateState_raw_messages,
              List.zip_append hsok.1] at hp
            rcases List.mem_append.mp hp with hp1 | hp1
            · exact eventOf_mono (hhist0 p hp1) l
            · have hp' : p = (pyStrip ev.status, pyStrip ev.msg) := by
                simpa using hp1
              rw [hp']
              exact hself
          by_cases hfin : pyStrip ev.status = "scanner_finish".toList
          · rw [stepEvent_finish hfin hid hfind0]
            refine ⟨?_, ?_⟩
            · intro id' st' hfind
              by_cases hidq : id' = id
              · subst hidq
                rw [dictFind_pop_self] at hfind
                cases hfind
              · rw [dictFind_pop_ne _ _ _ hidq] at hfind
                exact (psok_mono h l).1 id' st' hfind
            · intro r hr
              rcases List.mem_append.mp hr with hold | hnew
              · exact (psok_mono h l).2 r hold
              · rw [List.mem_singleton.mp hnew]
                refine ⟨updateState state0 (pyStrip ev.status) (pyStrip ev.msg),
                  digitsToNat ev.ts, hsok3, ?_, rfl, ?_, l,
                  List.mem_append.mpr (Or.inr (List.mem_singleton.mpr rfl)), ev, hdec,
                  hfin, ?_⟩
                · rw [updateState_statuses, hfin, List.getLast?_concat]
                · rw [emitRecord_attempt, updateState_attempt_id, hsid]
                  exact hhist3
                · rw [emitRecord_attempt, updateState_attempt_id, hsid]
                  exact hid
          · rw [stepEvent_update hstart hfin hid hfind0]
            refine ⟨?_, (psok_mono h l).2⟩
            intro id' st' hfind
            by_cases hidq : id' = id
            · subst hidq
              rw [dictFind_set_self] at hfind
              cases hfind
              exact ⟨by rw [updateState_attempt_id, hsid], hsok3, hhist3⟩
            · rw [dictFind_set_ne _ _ _ _ hidq] at hfind
              exact (psok_mono h l).1 id' st' hfind

theorem psok_init : PSOK [] initPS := by
  constructor
  · intro id st hfind
    simp [dictFind, initPS] at hfind
  · intro r hr
    simp [initPS] at hr

theorem psok_foldl (lines : List (List Char)) :
    ∀ (pre : List (List Char)) (ps : PState), PSOK pre ps →
      PSOK (pre ++ lines) (lines.foldl stepLine ps) := by
  induction lines with
  | nil =>
    intro pre ps h
    simpa using h
  | cons l ls ih =>
    intro pre ps h
    have h' := ih (pre ++ [l]) (stepLine ps l) (psok_step h l)
    simpa [List.append_assoc] using h'

theorem rows_ok (lines : List (List Char)) : ∀ r ∈ parse_lines lines, RowOK lines r := by
  have h := psok_foldl lines [] initPS psok_init
  rw [List.nil_append] at h
  intro r hr
  exact h.2 r hr

theorem mem_of_getLastQ {α : Type} {l : List α} {a : α} (h : l.getLast? = some a) :
    a ∈ l := by
  have hne : l ≠ [] := by
    intro hnil
    rw [hnil] at h
    simp at h
  rw [List.getLast?_eq_getLast l hne] at h
  cases h
  exact List.getLast_mem hne

/-- The last recorded error is non-empty as soon as one error was recorded,
hence the emitted (truncated) `error` field is empty iff no error-like event
was recorded. -/
theorem error_field_empty_iff {st : AttemptState} (herr : ∀ e ∈ st.errors, e ≠ []) :
    ((st.errors.getLastD []).take 1000 ≠ [] ↔ st.errors ≠ []) := by
  constructor
  · intro h hnil
    rw [hnil] at h
    simp at h
  · intro hne
    obtain ⟨e, he⟩ := Option.isSome_iff_exists.mp (List.getLast?_isSome.mpr hne)
    have hnee : e ≠ [] := herr e (mem_of_getLastQ he)
    rw [List.getLastD_eq_getLast?, he]
    cases e with
    | nil => exact absurd rfl hnee
    | cons a as => simp

/-! ### Claims -/

/-- C1: for every input line sequence and every attempt closed by a
`scanner_finish` event, the emitted record's label is `"success"` if the
attempt's `found` value is strictly positive, otherwise `"failed"` if at
least one error-like event was recorded for that attempt, otherwise
`"empty"`.  By the invariant that every recorded error payload is non-empty
(it carries the `attempt=` marker), "at least one error-like event was
recorded" is equivalent to the emitted `error` field being non-empty. -/
theorem claim_C1 (lines : List (List Char)) (r : Row) (hr : r ∈ parse_lines lines) :
    r.label =
      if 0 < r.found then "success".toList
      else if r.error ≠ [] then "failed".toList
      else "empty".toList := by
  obtain ⟨st, ts, ⟨hlen, hhead, hfound, herr, hsub⟩, hlast, heq, -, -⟩ :=
    rows_ok lines r hr
  subst heq
  rw [emitRecord_found, emitRecord_label, emitRecord_error]
  have hE := error_field_empty_iff herr
  by_cases hpos : 0 < st.found
  · rw [if_pos hpos, if_pos hpos]
  · rw [if_neg hpos, if_neg hpos]
    by_cases he : st.errors ≠ []
    · rw [if_pos he, if_pos (hE.mpr he)]
    · rw [if_neg he, if_neg (fun hc => he (hE.mp hc))]

/-- Witness for C1 on the spec's success scenario. -/
theorem claim_C1_witness :
    demoRow ∈ parse_lines [demoStart, demoFinish] ∧
    demoRow.label =
      (if 0 < demoRow.found then "success".toList
       else if demoRow.error ≠ [] then "failed".toList
       else "empty".toList) :=
  ⟨by decide, claim_C1 [demoStart, demoFinish] demoRow (by decide)⟩

/-- C3: for every closed attempt, the emitted `found` value is the running
maximum, over the attempt's (status, payload) history in arrival order, of
the count recovered from success-like events' payloads, zero by default;
events of other statuses contribute nothing.  Every pair of the history is
a decoded event of the input carrying the record's attempt id. -/
theorem claim_C3 (lines : List (List Char)) (r : Row) (hr : r ∈ parse_lines lines) :
    ∃ st ts, r = emitRecord st ts ∧
      st.statuses.length = st.raw_messages.length ∧
      r.found = foundSpec (st.statuses.zip st.raw_messages) ∧
      ∀ p ∈ st.statuses.zip st.raw_messages, EventOf lines r.attempt p := by
  obtain ⟨st, ts, ⟨hlen, hhead, hfound, herr, hsub⟩, hlast, heq, hhist, -⟩ :=
    rows_ok lines r hr
  refine ⟨st, ts, heq, hlen, ?_, hhist⟩
  rw [heq, emitRecord_found, hfound]

/-- Witness for C3 on the spec's success scenario. -/
theorem claim_C3_witness :
    demoRow ∈ parse_lines [demoStart, demoFinish] ∧
    (∃ st ts, demoRow = emitRecord st ts ∧
      st.statuses.length = st.raw_messages.length ∧
      demoRow.found = foundSpec (st.statuses.zip st.raw_messages) ∧
      ∀ p ∈ st.statuses.zip st.raw_messages,
        EventOf [demoStart, demoFinish] demoRow.attempt p) :=
  ⟨by decide, claim_C3 [demoStart, demoFinish] demoRow (by decide)⟩

/-- C4: for every closed attempt with at least one recorded error-like event,
the emitted `error_type` is the classification of the last recorded error
payload and `error` is that payload truncated to 1000 characters; with no
recorded errors both fields are empty. -/
theorem claim_C4 (lines : List (List Char)) (r : Row) (hr : r ∈ parse_lines lines) :
    ∃ st ts, r = emitRecord st ts ∧
      (st.errors = [] → r.error_type = [] ∧ r.error = []) ∧
      (st.errors ≠ [] → ∃ e, st.errors.getLast? = some e ∧ e ∈ st.raw_messages ∧
        r.error_type = classify_error e ∧ r.error = e.take 1000) := by
  obtain ⟨st, ts, ⟨hlen, hhead, hfound, herr, hsub⟩, hlast, heq, -, -⟩ :=
    rows_ok lines r hr
  refine ⟨st, ts, heq, ?_, ?_⟩
  · intro hnil
    rw [heq, emitRecord_error_type, emitRecord_error, hnil]
    simp
  · intro hne
    obtain ⟨e, he⟩ := Option.isSome_iff_exists.mp (List.getLast?_isSome.mpr hne)
    have hD : st.errors.getLastD [] = e := by
      rw [List.getLastD_eq_getLast?, he]
      rfl
    refine ⟨e, he, hsub e (mem_of_getLastQ he), ?_, ?_⟩
    · rw [heq, emitRecord_error_type, hD, if_pos (herr e (mem_of_getLastQ he))]
    · rw [heq, emitRecord_error, hD]

/-- Witness for C4 on the spec's DNS-failure scenario. -/
theorem claim_C4_witness :
    demoRow2 ∈ parse_lines [demoStart2, demoFatal2, demoFinish2] ∧
    (∃ st ts, demoRow2 = emitRecord st ts ∧
      (st.errors = [] → demoRow2.error_type = [] ∧ demoRow2.error = []) ∧
      (st.errors ≠ [] → ∃ e, st.errors.getLast? = some e ∧ e ∈ st.raw_messages ∧
        demoRow2.error_type = classify_error e ∧ demoRow2.error = e.take 1000)) :=
  ⟨by decide, claim_C4 [demoStart2, demoFatal2, demoFinish2] demoRow2 (by decide)⟩

/-- C10: every emitted record's statuses sequence is non-empty, starts with
`"scanner_start"` and ends with `"scanner_finish"`. -/
theorem claim_C10 (lines : List (List Char)) (r : Row) (hr : r ∈ parse_lines lines) :
    r.statuses ≠ [] ∧
    r.statuses.head? = some ("scanner_start".toList) ∧
    r.statuses.getLast? = some ("scanner_finish".toList) := by
  obtain ⟨st, ts, ⟨hlen, hhead, hfound, herr, hsub⟩, hlast, heq, -, -⟩ :=
    rows_ok lines r hr
  rw [heq, emitRecord_statuses]
  exact ⟨statuses_ne_nil_of_head hhead, hhead, hlast⟩

/-- Witness for C10 on the spec's DNS-failure scenario. -/
theorem claim_C10_witness :
    demoRow2 ∈ parse_lines [demoStart2, demoFatal2, demoFinish2] ∧
    (demoRow2.statuses ≠ [] ∧
     demoRow2.statuses.head? = some ("scanner_start".toList) ∧
     demoRow2.statuses.getLast? = some ("scanner_finish".toList)) :=
  ⟨by decide, claim_C10 [demoStart2, demoFatal2, demoFinish2] demoRow2 (by decide)⟩

/-- C6: an attempt id with no finish event anywhere in the input contributes
no record: in particular an attempt opened by a start event and never
finished is silently discarded at end of stream. -/
theorem claim_C6 (lines : List (List Char)) (i : Nat)
    (hnofin : ∀ line ∈ lines, isFinishFor i line = false) :
    ∀ r ∈ parse_lines lines, r.attempt ≠ i := by
  intro r hr hattempt
  obtain ⟨st, ts, hok, hlast, heq, -, line, hline, ev, hdec, hfin, hidp⟩ :=
    rows_ok lines r hr
  have hfalse := hnofin line hline
  rw [hattempt] at hidp
  simp only [isFinishFor, hdec, hfin, hidp] at hfalse
  simp at hfalse

/-- Witness for C6: a start for attempt 3 with no finish anywhere; the only
emitted record (for attempt 1) does not carry id 3. -/
theorem claim_C6_witness :
    demoRow ∈ parse_lines [demoStart, demoFinish, demoStart3] ∧ demoRow.attempt ≠ 3 :=
  ⟨by decide,
    claim_C6 [demoStart, demoFinish, demoStart3] 3 (by decide) demoRow (by decide)⟩

/-- C5: inserting lines that `LINE_RE` rejects at arbitrary positions of the
input leaves the emitted record sequence unchanged. -/
theorem claim_C5 (big small : List (List Char)) (h : JunkExtends big small) :
    parse_lines big = parse_lines small := by
  have hgen : ∀ ps : PState, big.foldl stepLine ps = small.foldl stepLine ps := by
    induction h with
    | nil => intro ps; rfl
    | keep l hrec ih =>
      intro ps
      simp only [List.foldl_cons]
      exact ih (stepLine ps l)
    | junk l hj hrec ih =>
      intro ps
      simp only [List.foldl_cons]
      have hskip : stepLine ps l = ps := by simp only [stepLine, hj]
      rw [hskip]
      exact ih ps
  unfold parse_lines
  rw [hgen initPS]

/-- Witness for C5: two junk lines inserted around and between the scenario
lines change nothing. -/
theorem claim_C5_witness :
    parse_lines [junkLine1, demoStart, junkLine2, demoFinish] =
      parse_lines [demoStart, demoFinish] :=
  claim_C5 _ _
    (JunkExtends.junk _ (by decide)
      (JunkExtends.keep _
        (JunkExtends.junk _ (by decide)
          (JunkExtends.keep _ JunkExtends.nil))))

/-- C2: the classifier is exactly the first-match scan of the ordered
(predicate, category) chain over the lowercased message, with catch-all
`other`; in particular a message carrying markers of two categories gets
the earlier category of the chain. -/
theorem claim_C2 (message : List Char) : classify_error message = classifySpec message := by
  unfold classify_error classifySpec specChain
  dsimp only
  simp only [List.find?]
  cases h1 : (containsSub ("unknownhostexception".toList) (pyLower message) ||
      containsSub ("unable to resolve host".toList) (pyLower message)) <;>
    cases h2 : (containsSub ("timeout".toList) (pyLower message) ||
      containsSub ("timed out".toList) (pyLower message)) <;>
    cases h3 : (containsSub ("http 429".toList) (pyLower message) ||
      containsSub ("rate".toList) (pyLower message)) <;>
    cases h4 : containsSub ("http 403".toList) (pyLower message) <;>
    cases h5 : containsSub ("http 401".toList) (pyLower message) <;>
    cases h6 : containsSub ("ssl".toList) (pyLower message) <;>
    cases h7 : containsSub ("network io".toList) (pyLower message) <;>
    rfl

/-- C9: on an empty record sequence the report is exactly the
no-completed-attempts notice, it contains no `##` breakdown section, and the
export is empty. -/
theorem claim_C9 :
    build_summary [] =
      "# AI training summary\n\nНет завершённых попыток scanner_finish в логе.\n".toList ∧
    containsSub ("##".toList) (build_summary []) = false ∧
    exportRows ([] : List Row) = [] :=
  ⟨rfl, by decide, rfl⟩

/-! ### Totality of the pipeline (C7) -/

theorem exceptBind_ok {ε α β : Type} (a : α) (f : α → Except ε β) :
    (Except.ok a >>= f : Except ε β) = f a := rfl

theorem intE_ok {ds : List Char} (h1 : ds ≠ []) (h2 : ds.all isDigitC = true) :
    intE ds = Except.ok (digitsToNat ds) := by
  rw [intE, if_pos ⟨h1, h2⟩]

theorem lastE_ok {l : List (List Char)} (h : l ≠ []) :
    lastE l = Except.ok (l.getLastD []) := by
  obtain ⟨e, he⟩ := Option.isSome_iff_exists.mp (List.getLast?_isSome.mpr h)
  unfold lastE
  rw [he, List.getLastD_eq_getLast?, he]
  rfl

theorem emitRecordE_ok (st : AttemptState) (ts : Nat) :
    emitRecordE st ts = Except.ok (emitRecord st ts) := by
  simp only [emitRecordE, emitRecord]
  by_cases h : st.errors = []
  · rw [if_neg (fun hc => hc h)]
    rw [show (pure [] : Except (List Char) (List Char)) = Except.ok [] from rfl,
      exceptBind_ok]
    rw [h]
    rfl
  · rw [if_pos h, lastE_ok h, exceptBind_ok]
    rfl

theorem dictGetE_ok {d : List (Nat × AttemptState)} {k : Nat} {st : AttemptState}
    (h : dictFind d k = some st) : dictGetE d k = Except.ok st := by
  unfold dictGetE
  rw [h]

theorem stepEventE_ok (ps : PState) (ev : RawEvent) (h1 : ev.ts ≠ [])
    (h2 : ev.ts.all isDigitC = true) :
    stepEventE ps ev = Except.ok (stepEvent ps ev) := by
  simp only [stepEventE]
  rw [intE_ok h1 h2, exceptBind_ok]
  cases hid : parse_attempt_id (pyStrip ev.msg) with
  | none =>
    rw [stepEvent_noId hid]
    split <;> rfl
  | some id =>
    dsimp only
    by_cases hstart : pyStrip ev.status = "scanner_start".toList
    · rw [if_pos hstart, stepEvent_start hstart hid]
      rfl
    · rw [if_neg hstart]
      cases hfind0 : dictFind ps.attempts id with
      | none =>
        rw [stepEvent_notLive hstart hid hfind0]
        have hc : dictContains ps.attempts id = false := by
          rw [dictContains, hfind0]
          rfl
        rw [hc]
        rfl
      | some state0 =>
        have hc : dictContains ps.attempts id = true := by
          rw [dictContains, hfind0]
          rfl
        rw [hc, if_pos rfl, dictGetE_ok hfind0, exceptBind_ok]
        by_cases hfin : pyStrip ev.status = "scanner_finish".toList
        · rw [if_pos hfin, stepEvent_finish hfin hid hfind0, emitRecordE_ok, exceptBind_ok]
          rfl
        · rw [if_neg hfin, stepEvent_update hstart hfin hid hfind0]
          rfl

theorem stepLineE_ok (ps : PState) (l : List Char) :
    stepLineE ps l = Except.ok (stepLine ps l) := by
  cases hdec : decodeChars l with
  | none => simp only [stepLineE, stepLine, hdec]; rfl
  | some ev =>
    simp only [stepLineE, stepLine, hdec]
    obtain ⟨h1, h2⟩ := decodeChars_ts hdec
    exact stepEventE_ok ps ev h1 h2

theorem foldlM_stepLineE (lines : List (List Char)) :
    ∀ ps : PState, lines.foldlM stepLineE ps = Except.ok (lines.foldl stepLine ps) := by
  induction lines with
  | nil => intro ps; rfl
  | cons l ls ih =>
    intro ps
    rw [List.foldlM_cons, stepLineE_ok, exceptBind_ok, List.foldl_cons]
    exact ih (stepLine ps l)

/-- C7: the core pipeline — attempt reconstruction followed by summary
generation — is total: run with every potentially raising operation made
explicit, it never raises and returns exactly the pure pipeline's output. -/
theorem claim_C7 (lines : List (List Char)) :
    pipelineE lines = Except.ok (pipeline lines) := by
  unfold pipelineE pipeline parse_linesE parse_lines
  rw [foldlM_stepLineE lines initPS, exceptBind_ok]
  rfl

/-! ### Query normalisation (C8) -/

theorem dropWhile_eq_self_of_headQ {p : Char → Bool} {l : List Char}
    (h : ∀ c, l.head? = some c → p c = false) : l.dropWhile p = l := by
  cases l with
  | nil => rfl
  | cons a as =>
    have ha := h a rfl
    rw [List.dropWhile_cons, if_neg (by rw [ha]; simp)]

theorem dropEndWhile_eq_self {p : Char → Bool} {l : List Char}
    (h : ∀ c, l.getLast? = some c → p c = false) : dropEndWhile p l = l := by
  unfold dropEndWhile
  rw [dropWhile_eq_self_of_headQ, List.reverse_reverse]
  intro c hc
  exact h c (by rwa [List.head?_reverse] at hc)

theorem noDoubleSpace_tail {a b : Char} {l : List Char}
    (h : noDoubleSpace (a :: b :: l) = true) : noDoubleSpace (b :: l) = true := by
  simp only [noDoubleSpace, Bool.and_eq_true] at h
  exact h.2

theorem noDoubleSpace_not_both {a b : Char} {l : List Char}
    (h : noDoubleSpace (a :: b :: l) = true) : (a == ' ' && b == ' ') = false := by
  simp only [noDoubleSpace, Bool.and_eq_true] at h
  have := h.1
  rwa [Bool.not_eq_true'] at this

theorem collapseWs_eq_self {l : List Char}
    (hws : ∀ c ∈ l, isPySpace c = true → c = ' ')
    (hdd : noDoubleSpace l = true) : collapseWs l = l := by
  induction l with
  | nil => rfl
  | cons a as ih =>
    cases as with
    | nil =>
      simp only [collapseWs]
      by_cases ha : isPySpace a = true
      · rw [if_pos ha, hws a (by simp) ha]
      · rw [if_neg ha]
    | cons b bs =>
      have hnb := noDoubleSpace_not_both hdd
      have hcond : ¬(isPySpace a && isPySpace b) = true := by
        intro hco
        rw [Bool.and_eq_true] at hco
        obtain ⟨ha, hb⟩ := hco
        rw [hws a (by simp) ha, hws b (by simp) hb] at hnb
        simp at hnb
      simp only [collapseWs]
      rw [if_neg hcond]
      congr 1
      · by_cases ha : isPySpace a = true
        · rw [if_pos ha, hws a (by simp) ha]
        · rw [if_neg ha]
      · exact ih (fun c hc hx => hws c (List.mem_cons_of_mem a hc) hx)
          (noDoubleSpace_tail hdd)

theorem goodQueryValue_normalize {v : List Char} (h : goodQueryValue v = true) :
    normalize_query v = v := by
  cases v with
  | nil => simp [goodQueryValue] at h
  | cons c cs =>
    simp only [goodQueryValue, Bool.and_eq_true] at h
    obtain ⟨⟨⟨h1, h2⟩, h3⟩, h4⟩ := h
    have h1q : qstripChar c = false := by
      rwa [Bool.not_eq_true'] at h1
    have h3' : ∀ x ∈ c :: cs, isPySpace x = true → x = ' ' := by
      intro x hx hsp
      have hax := List.all_eq_true.mp h3 x hx
      rw [hsp] at hax
      simpa using hax
    have hc_nsp : isPySpace c = false := by
      by_contra hcs
      rw [Bool.not_eq_false] at hcs
      have hce := h3' c (by simp) hcs
      rw [hce] at h1q
      simp [qstripChar] at h1q
    obtain ⟨e, he⟩ : ∃ e, (c :: cs).getLast? = some e :=
      Option.isSome_iff_exists.mp (List.getLast?_isSome.mpr (by simp))
    have h2q : qstripChar e = false := by
      rw [he] at h2
      rwa [Bool.not_eq_true'] at h2
    have he_nsp : isPySpace e = false := by
      by_contra hes
      rw [Bool.not_eq_false] at hes
      have hee := h3' e (mem_of_getLastQ he) hes
      rw [hee] at h2q
      simp [qstripChar] at h2q
    unfold normalize_query pyStrip pyStripPunct
    rw [dropWhile_eq_self_of_headQ (p := isPySpace) (fun d hd => by
      rw [List.head?_cons] at hd
      cases hd
      exact hc_nsp)]
    rw [dropEndWhile_eq_self (p := isPySpace) (fun d hd => by
      rw [he] at hd
      cases hd
      exact he_nsp)]
    rw [collapseWs_eq_self h3' h4]
    rw [dropWhile_eq_self_of_headQ (p := qstripChar) (fun d hd => by
      rw [List.head?_cons] at hd
      cases hd
      exact h1q)]
    rw [dropEndWhile_eq_self (p := qstripChar) (fun d hd => by
      rw [he] at hd
      cases hd
      exact h2q)]

/-- C8 fails as stated: for the query value `.ab`, the normalisation the
claim describes (`specNormalize`: whitespace collapse plus stripping of
trailing punctuation only) leaves `.ab` unchanged, yet the code also strips
the leading period and stores `ab`. -/
theorem claim_C8_counterexample :
    (parse_lines [cexStart, demoFinish]).map (fun r => r.query) = ["ab".toList] ∧
    specNormalize (".ab".toList) = ".ab".toList ∧
    ("ab".toList : List Char) ≠ ".ab".toList :=
  ⟨by decide, by decide, by decide⟩

/-- C8 (amended): on a start event the captured query is the first
`query=...` field, whitespace-collapsed and stripped of leading and trailing
punctuation and spaces; a query value made of single-space-separated words
with no leading or trailing punctuation is stored verbatim. -/
theorem claim_C8_amended (ps : PState) (ev : RawEvent) (id : Nat) (v : List Char)
    (hstart : pyStrip ev.status = "scanner_start".toList)
    (hid : parse_attempt_id (pyStrip ev.msg) = some id)
    (hv : goodQueryValue v = true) :
    (dictFind (stepEvent ps ev).attempts id).map (fun st => st.query) =
      some (normalize_query
        (extract_first (searchKey ("query=".toList) isQueryChar (pyStrip ev.msg)) [])) ∧
    normalize_query v = v := by
  refine ⟨?_, goodQueryValue_normalize hv⟩
  rw [stepEvent_start hstart hid]
  show (dictFind (dictSet ps.attempts id _) id).map _ = _
  rw [dictFind_set_self]
  rfl

/-- Witness for the amended C8 on a start event with query value
`foo bar`. -/
theorem claim_C8_witness :
    pyStrip demoEv.status = "scanner_start".toList ∧
    parse_attempt_id (pyStrip demoEv.msg) = some 1 ∧
    goodQueryValue ("foo bar".toList) = true ∧
    ((dictFind (stepEvent initPS demoEv).attempts 1).map (fun st => st.query) =
      some (normalize_query
        (extract_first (searchKey ("query=".toList) isQueryChar (pyStrip demoEv.msg)) [])) ∧
     normalize_query ("foo bar".toList) = "foo bar".toList) :=
  ⟨by decide, by decide, by decide,
    claim_C8_amended initPS demoEv 1 ("foo bar".toList) (by decide) (by decide) (by decide)⟩

end ScannerDataset
